import Mathlib

/-!
Verification of the social-mention-webhook repository.

The repository contains two implementations side by side:
in TypeScript the services `facebookService.ts` / `instagramService.ts`
(`processFacebookWebhook`, `processInstagramWebhook`, `getPageAccessToken`,
`getFacebookPostDetails`, `getInstagramMediaDetails`, `getInstagramUserDetails`),
the controller (`verifyWebhook`, `processWebhook`) and the configuration
loader (`extractPages`); and a legacy JavaScript server `webhook-server.js`
(GET and POST `/webhook` handlers, `handleMention`, `handleComment`,
`getFacebookPostDetails`, `getInstagramPostDetails`).

Strings model JavaScript strings; `Option` models possibly-undefined
values; JavaScript truthiness of strings is `strTruthy` (only the empty
string is falsy).  Network traffic is modelled by an `Oracle` giving the
response of each outbound request (`none` models a transport or API
error), and each function returns the list of requests it issued.
-/

/-- JavaScript truthiness of a possibly-undefined string value. -/
def strTruthy : Option String → Bool
  | some s => s != ""
  | none => false

/-- JavaScript `a || d` for a possibly-undefined string `a` and string default. -/
def jsOr (a : Option String) (d : String) : String :=
  match a with
  | some s => if s != "" then s else d
  | none => d

/-- JavaScript `a || b` for two possibly-undefined string values. -/
def jsOrOpt (a b : Option String) : Option String :=
  match a with
  | some s => if s != "" then some s else b
  | none => b

/-- JavaScript string interpolation of a possibly-undefined value. -/
def jsTemplate : Option String → String
  | some s => s
  | none => "undefined"

/-- JavaScript `text.includes(pat)`: `pat` occurs as a contiguous substring. -/
def strContains (text pat : String) : Bool :=
  let t := text.toList
  let p := pat.toList
  (List.range (t.length + 1)).any (fun i => (t.drop i).take p.length == p)

/-- JavaScript `s.toLowerCase()` (ASCII-adequate model via `Char.toLower`). -/
def lowerStr (s : String) : String :=
  ⟨s.toList.map Char.toLower⟩

/-- JavaScript `key.startsWith(pre)`. -/
def strStartsWith (s pre : String) : Bool :=
  s.toList.take pre.toList.length == pre.toList

/-- One configured page (TypeScript `config.meta.pages` element). -/
structure Page where
  id : String
  name : String
  pageAccessToken : String
  instagramUsername : Option String
  deriving Repr, DecidableEq

/-- The `config.meta` section used by the services and controller. -/
structure MetaConfig where
  verifyToken : String
  pages : List Page
  businessIgUsernames : List String
  deriving Repr, DecidableEq

/-- The `from` object of a webhook change value. -/
structure FromInfo where
  id : Option String
  name : Option String
  username : Option String
  instagram_id : Option String
  deriving Repr, DecidableEq

/-- The `media` object of an Instagram comment change value. -/
structure MediaRef where
  id : Option String
  deriving Repr, DecidableEq

/-- A webhook change `value` object; every field may be absent.  The union of
the fields read by the TypeScript services and the legacy JS handlers. -/
structure ChangeValue where
  item : Option String
  message : Option String
  text : Option String
  comment_id : Option String
  post_id : Option String
  id : Option String
  media : Option MediaRef
  media_id : Option String
  created_time : Option String
  page_id : Option String
  sender_id : Option String
  mentioned_username : Option String
  «from» : Option FromInfo
  deriving Repr, DecidableEq

/-- A change value with every field absent. -/
def emptyValue : ChangeValue :=
  ⟨none, none, none, none, none, none, none, none, none, none, none, none, none⟩

/-- One element of `entry.changes`. -/
structure Change where
  field : Option String
  value : Option ChangeValue
  deriving Repr, DecidableEq

/-- One webhook entry. -/
structure WebhookEntry where
  id : Option String
  time : Option Nat
  changes : Option (List Change)
  deriving Repr, DecidableEq

/-- A POST `/webhook` body. -/
structure WebhookPayload where
  object : String
  entry : Option (List WebhookEntry)
  deriving Repr, DecidableEq

/-- The `MentionData` record built by the services. -/
structure MentionData where
  platform : String
  postId : String
  postUrl : Option String
  postContent : Option String
  commentId : String
  commentText : String
  taggerId : String
  taggerName : Option String
  taggerUsername : Option String
  taggerProfilePicUrl : Option String
  mentionedUsername : String
  timestamp : Option Nat
  deriving Repr, DecidableEq

/-- An outbound Graph API request. -/
inductive NetCall where
  | fbPost (postId : String) (accessToken : String)
  | igMedia (mediaId : String) (accessToken : String)
  | igUser (userId : String) (accessToken : String)
  deriving Repr, DecidableEq

/-- Response body of a Facebook post lookup. -/
structure PostDetails where
  message : Option String
  permalink_url : Option String
  deriving Repr, DecidableEq

/-- Response body of an Instagram media lookup. -/
structure MediaDetails where
  caption : Option String
  permalink : Option String
  deriving Repr, DecidableEq

/-- Response body of an Instagram user lookup. -/
structure UserDetails where
  username : Option String
  profile_picture_url : Option String
  deriving Repr, DecidableEq

/-- The remote Graph API: maps each request to its response, `none` being a
transport or API error. -/
structure Oracle where
  fbPost : String → String → Option PostDetails
  igMedia : String → String → Option MediaDetails
  igUser : String → String → Option UserDetails

/-- An oracle on which every request fails. -/
def oracleNone : Oracle :=
  ⟨fun _ _ => none, fun _ _ => none, fun _ _ => none⟩

/-! ## TypeScript services (`facebookService.ts`, `instagramService.ts`) -/

/-- `getPageAccessToken(pageId?)` of `facebookService.ts`: look a page up by
id when the argument is truthy, fall back to the first configured page's
token, and return the empty string when no pages are configured. -/
def getPageAccessToken (pages : List Page) (pageId : Option String) : String :=
  let found := if strTruthy pageId then pages.find? (fun p => p.id == pageId.getD "") else none
  match found with
  | some page => page.pageAccessToken
  | none =>
    match pages with
    | page :: _ => page.pageAccessToken
    | [] => ""

/-- `getFacebookPostDetails` of `facebookService.ts`: short-circuits with
`null` on an empty access token, otherwise issues one Graph API request and
returns its response (`none` on error). -/
def getFacebookPostDetails (o : Oracle) (postId accessToken : String) :
    Option PostDetails × List NetCall :=
  if accessToken == "" then (none, [])
  else (o.fbPost postId accessToken, [NetCall.fbPost postId accessToken])

/-- `getInstagramMediaDetails` of `instagramService.ts`. -/
def getInstagramMediaDetails (o : Oracle) (mediaId accessToken : String) :
    Option MediaDetails × List NetCall :=
  if accessToken == "" then (none, [])
  else (o.igMedia mediaId accessToken, [NetCall.igMedia mediaId accessToken])

/-- `getInstagramUserDetails` of `instagramService.ts`. -/
def getInstagramUserDetails (o : Oracle) (userId accessToken : String) :
    Option UserDetails × List NetCall :=
  if accessToken == "" then (none, [])
  else (o.igUser userId accessToken, [NetCall.igUser userId accessToken])

/-- Body of `processFacebookWebhook` after the feed/comment guards have
passed: mention scan over the configured Instagram usernames (first match
wins), then over the configured pages (`@PageName` or `@[pageId]`), then
optional post-detail enrichment and construction of the `MentionData`. -/
def fbCore (cfg : MetaConfig) (o : Oracle) (commentData : ChangeValue)
    (time : Option Nat) : Option MentionData × List NetCall :=
  let commentText := jsOr commentData.message ""
  let mentionedUsername0 :=
    (cfg.businessIgUsernames.find? (fun u => strContains commentText ("@" ++ u))).getD ""
  let pageHit :=
    if mentionedUsername0 == "" then
      cfg.pages.find? (fun p =>
        strContains commentText ("@" ++ p.name) ||
        strContains commentText ("@[" ++ p.id ++ "]"))
    else none
  let mentionedPageId :=
    match pageHit with
    | some p => p.id
    | none => ""
  let mentionedUsername :=
    match pageHit with
    | some p => jsOr p.instagramUsername mentionedUsername0
    | none => mentionedUsername0
  if mentionedUsername == "" && mentionedPageId == "" then (none, [])
  else
    let taggerName := jsOr (commentData.«from».bind FromInfo.name) ""
    let fetched :=
      if strTruthy commentData.post_id then
        let pageAccessToken := getPageAccessToken cfg.pages (some mentionedPageId)
        if pageAccessToken != "" then
          let r := getFacebookPostDetails o (commentData.post_id.getD "") pageAccessToken
          match r.1 with
          | some postDetails =>
              (postDetails.message,
               some (jsOr postDetails.permalink_url
                 ("https://www.facebook.com/" ++ commentData.post_id.getD "")),
               r.2)
          | none => (none, none, r.2)
        else (none, none, [])
      else (none, none, ([] : List NetCall))
    (some { platform := "facebook"
            postId := jsOr commentData.post_id ""
            postUrl := fetched.2.1
            postContent := fetched.1
            commentId := jsOr commentData.comment_id ""
            commentText := commentText
            taggerId := jsOr (commentData.«from».bind FromInfo.id) ""
            taggerName := some taggerName
            taggerUsername := none
            taggerProfilePicUrl := none
            mentionedUsername := mentionedUsername
            timestamp := time }, fetched.2.2)

/-- The `try` body of `processFacebookWebhook`.  A `.error` result models a
thrown JavaScript `TypeError`; the only unguarded access is reading fields
of `entry.changes[0]`, which is defined whenever the preceding length
check passed. -/
def fbBodyE (cfg : MetaConfig) (o : Oracle) (entry : WebhookEntry) :
    Except String (Option MentionData × List NetCall) :=
  match entry.changes with
  | none => .ok (none, [])
  | some changes =>
    if changes.length == 0 then .ok (none, [])
    else
      match changes[0]? with
      | none => .error "TypeError: cannot read properties of undefined"
      | some change =>
        .ok (if change.field != some "feed" then (none, [])
             else match change.value with
             | none => (none, [])
             | some commentData =>
               if commentData.item != some "comment" then (none, [])
               else fbCore cfg o commentData entry.time)

/-- `processFacebookWebhook` of `facebookService.ts`: the `try` body with the
`catch` mapping any thrown error to `null` (and, having thrown, no further
requests). -/
def processFacebookWebhook (cfg : MetaConfig) (o : Oracle) (entry : WebhookEntry) :
    Option MentionData × List NetCall :=
  match fbBodyE cfg o entry with
  | .ok r => r
  | .error _ => (none, [])

/-- Body of `processInstagramWebhook` after the comments guards have passed:
mention scan over the configured Instagram usernames (first match wins),
then optional media-detail and user-detail enrichment and construction of
the `MentionData`. -/
def igCore (cfg : MetaConfig) (o : Oracle) (commentData : ChangeValue)
    (time : Option Nat) : Option MentionData × List NetCall :=
  let commentText := jsOr commentData.text ""
  let mentionedUsername :=
    (cfg.businessIgUsernames.find? (fun u => strContains commentText ("@" ++ u))).getD ""
  if mentionedUsername == "" then (none, [])
  else
    let associatedPage := cfg.pages.find? (fun page => page.instagramUsername == some mentionedUsername)
    let mediaId := commentData.media.bind MediaRef.id
    let fallbackToken :=
      match cfg.pages with
      | [] => ""
      | page :: _ => page.pageAccessToken
    let pageAccessToken := jsOr (associatedPage.map Page.pageAccessToken) fallbackToken
    let fetchedMedia :=
      if strTruthy mediaId then
        if pageAccessToken != "" then
          let r := getInstagramMediaDetails o (mediaId.getD "") pageAccessToken
          match r.1 with
          | some mediaDetails => (mediaDetails.caption, mediaDetails.permalink, r.2)
          | none => (none, none, r.2)
        else (none, none, [])
      else (none, none, ([] : List NetCall))
    let taggerUsername0 := jsOr (commentData.«from».bind FromInfo.username) ""
    let fetchedUser :=
      if strTruthy (commentData.«from».bind FromInfo.id) then
        if pageAccessToken != "" then
          let r := getInstagramUserDetails o ((commentData.«from».bind FromInfo.id).getD "") pageAccessToken
          match r.1 with
          | some taggerDetails =>
              (if strTruthy taggerDetails.username then taggerDetails.username.getD ""
               else taggerUsername0,
               taggerDetails.profile_picture_url, r.2)
          | none => (taggerUsername0, none, r.2)
        else (taggerUsername0, none, [])
      else (taggerUsername0, none, ([] : List NetCall))
    (some { platform := "instagram"
            postId := jsOr mediaId ""
            postUrl := fetchedMedia.2.1
            postContent := fetchedMedia.1
            commentId := jsOr commentData.id ""
            commentText := commentText
            taggerId := jsOr (commentData.«from».bind FromInfo.id) ""
            taggerName := none
            taggerUsername := some fetchedUser.1
            taggerProfilePicUrl := fetchedUser.2.1
            mentionedUsername := mentionedUsername
            timestamp := time }, fetchedMedia.2.2 ++ fetchedUser.2.2)

/-- The `try` body of `processInstagramWebhook`. -/
def igBodyE (cfg : MetaConfig) (o : Oracle) (entry : WebhookEntry) :
    Except String (Option MentionData × List NetCall) :=
  match entry.changes with
  | none => .ok (none, [])
  | some changes =>
    if changes.length == 0 then .ok (none, [])
    else
      match changes[0]? with
      | none => .error "TypeError: cannot read properties of undefined"
      | some change =>
        .ok (if change.field != some "comments" then (none, [])
             else match change.value with
             | none => (none, [])
             | some commentData => igCore cfg o commentData entry.time)

/-- `processInstagramWebhook` of `instagramService.ts`. -/
def processInstagramWebhook (cfg : MetaConfig) (o : Oracle) (entry : WebhookEntry) :
    Option MentionData × List NetCall :=
  match igBodyE cfg o entry with
  | .ok r => r
  | .error _ => (none, [])

/-! ## TypeScript controller (`webhookController.ts`) -/

/-- An HTTP response as produced by the handlers (status and optional body). -/
structure HttpResponse where
  status : Nat
  body : Option String
  deriving Repr, DecidableEq

/-- `verifyWebhook` of the TypeScript controller: JavaScript truthiness check
on `hub.mode` and `hub.verify_token`, then strict comparison of the mode
with `subscribe` and of the token with the configured verify token;
200 + challenge on success, 403 on mismatch, 400 on missing parameters. -/
def verifyWebhook (verifyToken : String) (mode token challenge : Option String) :
    HttpResponse :=
  if strTruthy mode && strTruthy token then
    if mode == some "subscribe" && token == some verifyToken then
      { status := 200, body := challenge }
    else
      { status := 403, body := none }
  else
    { status := 400, body := none }

/-- An observable action of a POST handler, in execution order: the HTTP
acknowledgment, the dispatch of an entry or change to a processing
routine, an outbound Graph API request, or an email notification. -/
inductive Event where
  | ack (status : Nat) (body : String)
  | dispatch (platform : String)
  | net (c : NetCall)
  | email (mentionedUsername : Option String)
  deriving Repr, DecidableEq

/-- The actions the TypeScript controller performs for one entry: dispatch to
the platform extractor, the extractor's requests, then an email through
`sendAllNotifications` exactly when a mention was found. -/
def entryEvents (cfg : MetaConfig) (o : Oracle) (object : String)
    (e : WebhookEntry) : List Event :=
  let r := if object == "page" then processFacebookWebhook cfg o e
           else processInstagramWebhook cfg o e
  Event.dispatch object :: r.2.map Event.net ++
    (match r.1 with
     | some m => [Event.email (some m.mentionedUsername)]
     | none => [])

/-- `processWebhook` of the TypeScript controller: the 200 `EVENT_RECEIVED`
acknowledgment is sent first, then for a `page` or `instagram` object each
entry is dispatched in order (iterating a missing `entry` list throws,
which the surrounding `catch` swallows after the acknowledgment). -/
def processWebhook (cfg : MetaConfig) (o : Oracle) (payload : WebhookPayload) :
    List Event :=
  Event.ack 200 "EVENT_RECEIVED" ::
    (if payload.object == "page" || payload.object == "instagram" then
      match payload.entry with
      | none => []
      | some entries => (entries.map (entryEvents cfg o payload.object)).flatten
    else [])

/-! ## Legacy JavaScript server (`webhook-server.js`) -/

/-- A `facebookPages[pageId]` record of the legacy server (either field may be
an absent environment variable). -/
structure JsPage where
  name : Option String
  token : Option String
  deriving Repr, DecidableEq

/-- An `instagramAccounts[username]` record of the legacy server. -/
structure JsAccount where
  pageId : String
  token : String
  name : String
  deriving Repr, DecidableEq

/-- The legacy server's `instagramAccounts` map: keys (lowercased usernames)
to records, in insertion order. -/
def JsAccounts := List (String × JsAccount)

/-- Result of the legacy detail fetchers: the shaped success record or the
error object built in the `catch` (never `null`). -/
inductive JsFetchResult where
  | success (postMessage : String) (postUrl : Option String)
  | fetchError
  deriving Repr, DecidableEq

/-- `getFacebookPostDetails` of `webhook-server.js`: issues the Graph API
request unconditionally (no access-token check) and returns an error
object, not `null`, on failure. -/
def jsGetFacebookPostDetails (o : Oracle) (postId accessToken : String) :
    JsFetchResult × List NetCall :=
  (match o.fbPost postId accessToken with
   | some d => .success (jsOr d.message "") d.permalink_url
   | none => .fetchError,
   [NetCall.fbPost postId accessToken])

/-- `getInstagramPostDetails` of `webhook-server.js`: likewise unconditional. -/
def jsGetInstagramPostDetails (o : Oracle) (mediaId accessToken : String) :
    JsFetchResult × List NetCall :=
  (match o.igMedia mediaId accessToken with
   | some d => .success (jsOr d.caption "") d.permalink
   | none => .fetchError,
   [NetCall.igMedia mediaId accessToken])

/-- The mention-lookup predicate of the legacy `handleComment`: the comment
text and the monitored username are both lowercased before the substring
test. -/
def jsMentionMatch (message username : String) : Bool :=
  strContains (lowerStr message) ("@" ++ lowerStr username)

/-- `handleMention` of `webhook-server.js`.  Accesses that throw on absent
data (`mentioned_username.toLowerCase()`, `accountInfo.token`, the
`!pageToken` throw) are caught by the function's own `catch` and produce
no events. -/
def jsHandleMention (accounts : JsAccounts) (fbPages : List (String × JsPage))
    (o : Oracle) (data : ChangeValue) (platform : String) : List Event :=
  if platform == "facebook" then
    let pageToken :=
      match data.page_id with
      | none => none
      | some pid => (fbPages.find? (fun kv => kv.1 == pid)).bind (fun kv => kv.2.token)
    if strTruthy pageToken then
      (jsGetFacebookPostDetails o (jsTemplate data.post_id) (pageToken.getD "")).2.map Event.net
        ++ [Event.email none]
    else []
  else if platform == "instagram" then
    match data.mentioned_username with
    | none => []
    | some mu =>
      match (accounts.find? (fun kv => kv.1 == lowerStr mu)).map (fun kv => kv.2) with
      | none => []
      | some accountInfo =>
        (jsGetInstagramPostDetails o (jsTemplate data.media_id) accountInfo.token).2.map Event.net
          ++ [Event.email (some mu)]
  else []

/-- `handleComment` of `webhook-server.js`: platform inferred from
`from?.instagram_id`, message is `message || text` (calling
`toLowerCase` on an absent message throws into the `catch`), mention
lookup lowercases both sides, first matching monitored account wins, then
one detail request and the email. -/
def jsHandleComment (accounts : JsAccounts) (o : Oracle) (data : ChangeValue) :
    List Event :=
  let platform :=
    if strTruthy (data.«from».bind FromInfo.instagram_id) then "instagram" else "facebook"
  let postId := jsOrOpt data.post_id data.media_id
  match jsOrOpt data.message data.text with
  | none => []
  | some message =>
    let monitoredAccounts := accounts.map (fun kv => kv.1)
    let containsMention := monitoredAccounts.any (fun u => jsMentionMatch message u)
    if !containsMention then []
    else
      match monitoredAccounts.find? (fun u => jsMentionMatch message u) with
      | none => []
      | some mentionedAccount =>
        match (accounts.find? (fun kv => kv.1 == lowerStr mentionedAccount)).map (fun kv => kv.2) with
        | none => []
        | some accountInfo =>
          let r :=
            if platform == "instagram" then
              jsGetInstagramPostDetails o (jsTemplate postId) accountInfo.token
            else
              jsGetFacebookPostDetails o (jsTemplate postId) accountInfo.token
          r.2.map Event.net ++ [Event.email (some mentionedAccount)]

/-- The dispatch on `change.field` inside the legacy POST handler's loop. -/
def jsChangeEvents (accounts : JsAccounts) (fbPages : List (String × JsPage))
    (o : Oracle) (c : Change) : List Event :=
  if c.field == some "mention" then
    match c.value with
    | none => []
    | some v => jsHandleMention accounts fbPages o v "facebook"
  else if c.field == some "mentions" then
    match c.value with
    | none => []
    | some v => jsHandleMention accounts fbPages o v "instagram"
  else if c.field == some "comments" then
    match c.value with
    | none => []
    | some v => jsHandleComment accounts o v
  else []

/-- The POST `/webhook` handler of `webhook-server.js`: for a `page` or
`instagram` object it iterates EVERY change of EVERY entry and only then
sends the 200 `EVENT_RECEIVED` acknowledgment; other objects get a 404.
A missing `entry` list makes the unprotected `for..of` throw before any
response is sent. -/
def jsProcessPost (accounts : JsAccounts) (fbPages : List (String × JsPage))
    (o : Oracle) (payload : WebhookPayload) : List Event :=
  if payload.object == "page" || payload.object == "instagram" then
    match payload.entry with
    | none => []
    | some entries =>
      (entries.map (fun e =>
        match e.changes with
        | none => []
        | some cs => (cs.map (jsChangeEvents accounts fbPages o)).flatten)).flatten
        ++ [Event.ack 200 "EVENT_RECEIVED"]
  else [Event.ack 404 ""]

/-- The GET `/webhook` handler of `webhook-server.js`: as `verifyWebhook`
but with 404 for missing parameters. -/
def jsVerifyGet (verifyToken : String) (mode token challenge : Option String) :
    HttpResponse :=
  if strTruthy mode && strTruthy token then
    if mode == some "subscribe" && token == some verifyToken then
      { status := 200, body := challenge }
    else
      { status := 403, body := none }
  else
    { status := 404, body := none }

/-! ## Configuration loader (`src/config/index.ts`) -/

/-- The process environment: key-value pairs with first-match lookup. -/
def EnvMap := List (String × String)

/-- `process.env[key]` lookup. -/
def envGet (env : EnvMap) (key : String) : Option String :=
  (env.find? (fun kv => kv.1 == key)).map (fun kv => kv.2)

/-- Lexicographic comparison of strings by code points (the order of
JavaScript `Array.prototype.sort()` on these keys). -/
def charListLe : List Char → List Char → Bool
  | [], _ => true
  | _ :: _, [] => false
  | x :: xs, y :: ys =>
    if x.toNat < y.toNat then true
    else if y.toNat < x.toNat then false
    else charListLe xs ys

/-- Insertion step of the string sort used for the `PAGE_ID_x` keys. -/
def insertSorted (x : String) : List String → List String
  | [] => [x]
  | y :: ys =>
    if charListLe x.toList y.toList then x :: y :: ys else y :: insertSorted x ys

/-- JavaScript `Array.prototype.sort()` on strings (lexicographic). -/
def sortStrings : List String → List String
  | [] => []
  | x :: xs => insertSorted x (sortStrings xs)

/-- `extractPages` of `src/config/index.ts`: collect the sorted `PAGE_ID_x`
keys, read the page id, name, token and optional Instagram username for
each index, and keep only pages whose id, name and token are all
non-empty (an empty `PAGE_IG_USERNAME_x` becomes `undefined`). -/
def extractPages (env : EnvMap) : List Page :=
  let pageIdKeys := sortStrings ((env.map (fun kv => kv.1)).filter
    (fun k => strStartsWith k "PAGE_ID_"))
  pageIdKeys.filterMap (fun idKey =>
    let index := idKey.drop 8
    let id := (envGet env idKey).getD ""
    let name := (envGet env ("PAGE_NAME_" ++ index)).getD ""
    let token := (envGet env ("PAGE_TOKEN_" ++ index)).getD ""
    let igUsername :=
      match envGet env ("PAGE_IG_USERNAME_" ++ index) with
      | some s => if s != "" then some s else none
      | none => none
    if id != "" && name != "" && token != "" then
      some { id := id, name := name, pageAccessToken := token,
             instagramUsername := igUsername }
    else none)

/-! ## Derived views of an entry used to state the properties -/

/-- The comment text `processFacebookWebhook` reads from an entry. -/
def fbText (e : WebhookEntry) : String :=
  match e.changes with
  | some (c :: _) =>
    (match c.value with
     | some v => jsOr v.message ""
     | none => "")
  | _ => ""

/-- The comment text `processInstagramWebhook` reads from an entry. -/
def igText (e : WebhookEntry) : String :=
  match e.changes with
  | some (c :: _) =>
    (match c.value with
     | some v => jsOr v.text ""
     | none => "")
  | _ => ""

/-- Whether the first change of an entry passes the Facebook guards:
field `feed`, a value present, item `comment`. -/
def fbRelevant (e : WebhookEntry) : Bool :=
  match e.changes with
  | some (c :: _) =>
    c.field == some "feed" &&
      (match c.value with
       | some v => v.item == some "comment"
       | none => false)
  | _ => false

/-- Whether the first change of an entry passes the Instagram guards:
field `comments` and a value present. -/
def igRelevant (e : WebhookEntry) : Bool :=
  match e.changes with
  | some (c :: _) => c.field == some "comments" && c.value.isSome
  | _ => false

/-- The text contains a literal `@username` for a configured business
Instagram username, or (Facebook path) a literal `@PageName` or
`@[pageId]` for a configured page. -/
def fbMentionMatch (cfg : MetaConfig) (text : String) : Bool :=
  cfg.businessIgUsernames.any (fun u => strContains text ("@" ++ u)) ||
  cfg.pages.any (fun p =>
    strContains text ("@" ++ p.name) || strContains text ("@[" ++ p.id ++ "]"))

/-- The text contains a literal `@username` for a configured business
Instagram username. -/
def igMentionMatch (cfg : MetaConfig) (text : String) : Bool :=
  cfg.businessIgUsernames.any (fun u => strContains text ("@" ++ u))

/-! ## Concrete data for witnesses and counterexamples -/

/-- A configuration with two pages and two monitored usernames. -/
def wCfg : MetaConfig :=
  { verifyToken := "secret",
    pages := [{ id := "p1", name := "Acme Page", pageAccessToken := "tok1",
                instagramUsername := some "acme" },
              { id := "p2", name := "Beta", pageAccessToken := "tok2",
                instagramUsername := none }],
    businessIgUsernames := ["acme", "beta"] }

/-- A Facebook comment change value mentioning `@acme`. -/
def wValFB : ChangeValue :=
  { emptyValue with
    item := some "comment"
    message := some "Great shot, @acme!"
    comment_id := some "c1"
    post_id := some "post9"
    «from» := some ⟨some "u7", some "Jane", none, none⟩ }

/-- A Facebook entry whose first change is a qualifying comment mention. -/
def wEntryFB : WebhookEntry :=
  { id := some "e1", time := some 100,
    changes := some [{ field := some "feed", value := some wValFB }] }

/-- A Facebook comment change value whose text mentions nobody. -/
def wValFBNoMention : ChangeValue :=
  { emptyValue with item := some "comment", message := some "nothing to see" }

/-- A Facebook entry whose comment text mentions nobody. -/
def wEntryFBNoMention : WebhookEntry :=
  { id := some "e2", time := some 101,
    changes := some [{ field := some "feed", value := some wValFBNoMention }] }

/-- An entry whose first change has the wrong field for Instagram. -/
def wEntryIGWrongField : WebhookEntry :=
  { id := some "e3", time := some 102,
    changes := some [{ field := some "feed", value := some emptyValue }] }

/-- An Instagram comment change value mentioning `@beta`. -/
def wValIG : ChangeValue :=
  { emptyValue with
    text := some "yo @beta"
    id := some "cid"
    media := some ⟨some "m1"⟩
    «from» := some ⟨some "u1", none, some "bob", none⟩ }

/-- An Instagram entry whose first change is a qualifying comment mention. -/
def wEntryIG : WebhookEntry :=
  { id := some "e4", time := some 103,
    changes := some [{ field := some "comments", value := some wValIG }] }

/-- The legacy server's `instagramAccounts` with one monitored account. -/
def wAccounts : JsAccounts := [("acme", ⟨"p1", "tok1", "Acme"⟩)]

/-- The legacy server's `facebookPages` with one configured page. -/
def wFbPages : List (String × JsPage) := [("p1", ⟨some "Acme", some "tok1"⟩)]

/-- A comment change whose text mentions `@acme` (single change). -/
def wPayloadOneChange : WebhookPayload :=
  ⟨"instagram",
   some [⟨none, none,
          some [⟨some "comments", some { emptyValue with text := some "hi @acme" }⟩]⟩]⟩

/-- A payload whose qualifying comment mention sits only in the second
change of its entry. -/
def wPayloadSecondChange : WebhookPayload :=
  ⟨"instagram",
   some [⟨none, none,
          some [⟨some "other", none⟩,
                ⟨some "comments", some { emptyValue with text := some "hi @acme" }⟩]⟩]⟩

/-- A comment change value whose text mentions `@ACME` in the wrong case. -/
def wValUpperCase : ChangeValue := { emptyValue with text := some "hi @ACME" }

/-- The same payload as `wPayloadSecondChange` but with only its first,
non-qualifying change. -/
def wPayloadFirstOnly : WebhookPayload :=
  ⟨"instagram", some [⟨none, none, some [⟨some "other", none⟩]⟩]⟩

/-- The record the Instagram extractor builds for `wEntryIG` under `wCfg`
with every Graph request failing. -/
def wMentionIG : MentionData :=
  { platform := "instagram", postId := "m1", postUrl := none, postContent := none,
    commentId := "cid", commentText := "yo @beta", taggerId := "u1",
    taggerName := none, taggerUsername := some "bob", taggerProfilePicUrl := none,
    mentionedUsername := "beta", timestamp := some 103 }

/-- An environment with one complete page configuration and one incomplete
one (missing name and token). -/
def wEnv : EnvMap :=
  [("PAGE_ID_1", "p1"), ("PAGE_NAME_1", "N1"), ("PAGE_TOKEN_1", "t1"),
   ("PAGE_ID_2", "p2")]

/-! ## Helper lemmas -/

/-- `strContains` is exactly occurrence as a contiguous (case-sensitive)
substring. -/
theorem strContains_iff (text pat : String) :
    strContains text pat = true ↔
      ∃ pre post, text.toList = pre ++ pat.toList ++ post := by
  unfold strContains
  simp only [List.any_eq_true, List.mem_range]
  constructor
  · rintro ⟨i, _, hp⟩
    have hp' : (text.toList.drop i).take pat.toList.length = pat.toList :=
      beq_iff_eq.mp hp
    refine ⟨text.toList.take i, (text.toList.drop i).drop pat.toList.length, ?_⟩
    conv_lhs => rw [← List.take_append_drop i text.toList]
    conv_lhs => rw [← List.take_append_drop pat.toList.length (text.toList.drop i)]
    rw [hp', List.append_assoc]
  · rintro ⟨pre, post, h⟩
    refine ⟨pre.length, ?_, ?_⟩
    · have hlen := congrArg List.length h
      rw [List.length_append, List.length_append] at hlen
      omega
    · rw [h, List.append_assoc, List.drop_left, List.take_left]
      exact beq_self_eq_true pat.toList

/-- `List.find?` returns the first element satisfying the predicate: if
everything before `u` fails the predicate and `u` satisfies it, `u` is
returned whatever comes after it. -/
theorem find?_first {α : Type} (p : α → Bool) (pre : List α) (u : α) (post : List α)
    (h1 : ∀ v ∈ pre, p v = false) (h2 : p u = true) :
    (pre ++ u :: post).find? p = some u := by
  induction pre with
  | nil => simp [List.find?_cons, h2]
  | cons a as ih =>
    have ha : p a = false := h1 a (by simp)
    simp only [List.cons_append, List.find?_cons, ha]
    exact ih (fun v hv => h1 v (by simp [hv]))

/-- `getPageAccessToken` always answers with the token of one of the
configured pages when any page is configured. -/
theorem getPageAccessToken_mem (pages : List Page) (pageId : Option String)
    (h : pages ≠ []) :
    ∃ p ∈ pages, getPageAccessToken pages pageId = p.pageAccessToken := by
  cases pages with
  | nil => exact absurd rfl h
  | cons q qs =>
    cases ht : strTruthy pageId with
    | true =>
      cases hf : (q :: qs).find? (fun p => p.id == pageId.getD "") with
      | some page =>
        exact ⟨page, List.mem_of_find?_eq_some hf, by simp [getPageAccessToken, ht, hf]⟩
      | none =>
        exact ⟨q, by simp, by simp [getPageAccessToken, ht, hf]⟩
    | false =>
      exact ⟨q, by simp, by simp [getPageAccessToken, ht]⟩

/-- Every page kept by `extractPages` has non-empty id, name and token. -/
theorem extractPages_fields (env : EnvMap) :
    ∀ p ∈ extractPages env, p.id ≠ "" ∧ p.name ≠ "" ∧ p.pageAccessToken ≠ "" := by
  intro p hp
  unfold extractPages at hp
  rw [List.mem_filterMap] at hp
  obtain ⟨key, _, hf⟩ := hp
  dsimp only at hf
  split at hf
  case isTrue hcond =>
    simp only [Bool.and_eq_true, bne_iff_ne] at hcond
    cases hf
    exact ⟨hcond.1.1, hcond.1.2, hcond.2⟩
  case isFalse => cases hf

/-- Unfolding of `processFacebookWebhook` by the shape of `entry.changes`. -/
theorem processFacebookWebhook_eq (cfg : MetaConfig) (o : Oracle) (e : WebhookEntry) :
    processFacebookWebhook cfg o e =
      match e.changes with
      | none => (none, [])
      | some [] => (none, [])
      | some (c :: _) =>
        if c.field != some "feed" then (none, [])
        else match c.value with
          | none => (none, [])
          | some v =>
            if v.item != some "comment" then (none, [])
            else fbCore cfg o v e.time := by
  obtain ⟨i, t, cs⟩ := e
  cases cs with
  | none => rfl
  | some l =>
    cases l with
    | nil => rfl
    | cons c rest =>
      simp only [processFacebookWebhook, fbBodyE, List.getElem?_cons_zero,
        List.length_cons]
      norm_num

/-- Unfolding of `processInstagramWebhook` by the shape of `entry.changes`. -/
theorem processInstagramWebhook_eq (cfg : MetaConfig) (o : Oracle) (e : WebhookEntry) :
    processInstagramWebhook cfg o e =
      match e.changes with
      | none => (none, [])
      | some [] => (none, [])
      | some (c :: _) =>
        if c.field != some "comments" then (none, [])
        else match c.value with
          | none => (none, [])
          | some v => igCore cfg o v e.time := by
  obtain ⟨i, t, cs⟩ := e
  cases cs with
  | none => rfl
  | some l =>
    cases l with
    | nil => rfl
    | cons c rest =>
      simp only [processInstagramWebhook, igBodyE, List.getElem?_cons_zero,
        List.length_cons]
      norm_num

/-- When the comment text matches no configured identifier, the Facebook
core produces no record and no request. -/
theorem fbCore_none_of_no_match (cfg : MetaConfig) (o : Oracle) (v : ChangeValue)
    (t : Option Nat) (h : fbMentionMatch cfg (jsOr v.message "") = false) :
    fbCore cfg o v t = (none, []) := by
  rw [fbMentionMatch, Bool.or_eq_false_iff] at h
  obtain ⟨h1, h2⟩ := h
  rw [List.any_eq_false] at h1
  rw [List.any_eq_false] at h2
  have hf1 : cfg.businessIgUsernames.find?
      (fun u => strContains (jsOr v.message "") ("@" ++ u)) = none :=
    List.find?_eq_none.mpr h1
  have hf2 : cfg.pages.find? (fun p =>
      strContains (jsOr v.message "") ("@" ++ p.name) ||
      strContains (jsOr v.message "") ("@[" ++ p.id ++ "]")) = none :=
    List.find?_eq_none.mpr h2
  simp [fbCore, hf1, hf2]

/-- The Facebook core yields either no record or a record whose comment
text is the entry's message. -/
theorem fbCore_fst (cfg : MetaConfig) (o : Oracle) (v : ChangeValue) (t : Option Nat) :
    (fbCore cfg o v t).1 = none ∨
      ∃ md, (fbCore cfg o v t).1 = some md ∧ md.commentText = jsOr v.message "" := by
  simp only [fbCore]
  split_ifs
  all_goals first
    | (left; rfl)
    | (right; exact ⟨_, rfl, rfl⟩)

/-- When the Facebook core produces a record, its comment text is the
entry's message and that text matches a configured identifier. -/
theorem fbCore_some_match (cfg : MetaConfig) (o : Oracle) (v : ChangeValue)
    (t : Option Nat) (md : MentionData) (calls : List NetCall)
    (h : fbCore cfg o v t = (some md, calls)) :
    md.commentText = jsOr v.message "" ∧
      fbMentionMatch cfg (jsOr v.message "") = true := by
  have hmatch : fbMentionMatch cfg (jsOr v.message "") = true := by
    by_contra hm
    rw [Bool.not_eq_true] at hm
    rw [fbCore_none_of_no_match cfg o v t hm] at h
    simp at h
  refine ⟨?_, hmatch⟩
  rcases fbCore_fst cfg o v t with h0 | ⟨md', h1, h2⟩
  · rw [h] at h0
    simp at h0
  · rw [h] at h1
    simp only [Option.some.injEq] at h1
    rw [h1]
    exact h2

/-- When the comment text matches no configured username, the Instagram
core produces no record and no request. -/
theorem igCore_none_of_no_match (cfg : MetaConfig) (o : Oracle) (v : ChangeValue)
    (t : Option Nat) (h : igMentionMatch cfg (jsOr v.text "") = false) :
    igCore cfg o v t = (none, []) := by
  rw [igMentionMatch, List.any_eq_false] at h
  have hf : cfg.businessIgUsernames.find?
      (fun u => strContains (jsOr v.text "") ("@" ++ u)) = none :=
    List.find?_eq_none.mpr h
  simp [igCore, hf]

/-- The Instagram core yields either no record or a record whose comment
text is the entry's text. -/
theorem igCore_fst (cfg : MetaConfig) (o : Oracle) (v : ChangeValue) (t : Option Nat) :
    (igCore cfg o v t).1 = none ∨
      ∃ md, (igCore cfg o v t).1 = some md ∧ md.commentText = jsOr v.text "" := by
  simp only [igCore]
  split_ifs
  all_goals first
    | (left; rfl)
    | (right; exact ⟨_, rfl, rfl⟩)

/-- When the Instagram core produces a record, its comment text is the
entry's text and that text matches a configured username. -/
theorem igCore_some_match (cfg : MetaConfig) (o : Oracle) (v : ChangeValue)
    (t : Option Nat) (md : MentionData) (calls : List NetCall)
    (h : igCore cfg o v t = (some md, calls)) :
    md.commentText = jsOr v.text "" ∧
      igMentionMatch cfg (jsOr v.text "") = true := by
  have hmatch : igMentionMatch cfg (jsOr v.text "") = true := by
    by_contra hm
    rw [Bool.not_eq_true] at hm
    rw [igCore_none_of_no_match cfg o v t hm] at h
    simp at h
  refine ⟨?_, hmatch⟩
  rcases igCore_fst cfg o v t with h0 | ⟨md', h1, h2⟩
  · rw [h] at h0
    simp at h0
  · rw [h] at h1
    simp only [Option.some.injEq] at h1
    rw [h1]
    exact h2

/-- A non-qualifying first change yields no record and no request (Facebook). -/
theorem fb_not_relevant_none (cfg : MetaConfig) (o : Oracle) (e : WebhookEntry)
    (h : fbRelevant e = false) : processFacebookWebhook cfg o e = (none, []) := by
  rw [processFacebookWebhook_eq]
  obtain ⟨i, t, cs⟩ := e
  match cs with
  | none => rfl
  | some [] => rfl
  | some (c :: rest) =>
    simp only [fbRelevant, Bool.and_eq_false_iff] at h
    dsimp only
    by_cases hf : c.field = some "feed"
    · have hf' : (c.field != some "feed") = false := by simp [hf]
      simp only [hf', Bool.false_eq_true, if_false]
      match hv : c.value with
      | none => rfl
      | some v =>
        dsimp only
        rcases h with h | h
        · rw [hf] at h
          simp at h
        · rw [hv] at h
          dsimp only at h
          have hi : (v.item != some "comment") = true := by
            simp only [bne]
            rw [h]
            rfl
          rw [hi]
          rfl
    · have hf' : (c.field != some "feed") = true := by simp [hf]
      rw [hf']
      rfl

/-- A non-qualifying first change yields no record and no request (Instagram). -/
theorem ig_not_relevant_none (cfg : MetaConfig) (o : Oracle) (e : WebhookEntry)
    (h : igRelevant e = false) : processInstagramWebhook cfg o e = (none, []) := by
  rw [processInstagramWebhook_eq]
  obtain ⟨i, t, cs⟩ := e
  match cs with
  | none => rfl
  | some [] => rfl
  | some (c :: rest) =>
    simp only [igRelevant, Bool.and_eq_false_iff] at h
    dsimp only
    by_cases hf : c.field = some "comments"
    · have hf' : (c.field != some "comments") = false := by simp [hf]
      simp only [hf', Bool.false_eq_true, if_false]
      match hv : c.value with
      | none => rfl
      | some v =>
        dsimp only
        rcases h with h | h
        · rw [hf] at h
          simp at h
        · rw [hv] at h
          simp at h
    · have hf' : (c.field != some "comments") = true := by simp [hf]
      rw [hf']
      rfl

/-- A comment text matching no configured identifier yields no record and no
request (Facebook). -/
theorem fb_no_match_none (cfg : MetaConfig) (o : Oracle) (e : WebhookEntry)
    (h : fbMentionMatch cfg (fbText e) = false) :
    processFacebookWebhook cfg o e = (none, []) := by
  rw [processFacebookWebhook_eq]
  obtain ⟨i, t, cs⟩ := e
  match cs with
  | none => rfl
  | some [] => rfl
  | some (c :: rest) =>
    dsimp only
    by_cases hf : c.field = some "feed"
    · have hf' : (c.field != some "feed") = false := by simp [hf]
      simp only [hf', Bool.false_eq_true, if_false]
      match hv : c.value with
      | none => rfl
      | some v =>
        dsimp only
        by_cases hi : v.item = some "comment"
        · have hi' : (v.item != some "comment") = false := by simp [hi]
          simp only [hi', Bool.false_eq_true, if_false]
          apply fbCore_none_of_no_match
          have htext : fbText ⟨i, t, some (c :: rest)⟩ = jsOr v.message "" := by
            simp [fbText, hv]
          rw [← htext]
          exact h
        · have hi' : (v.item != some "comment") = true := by simp [hi]
          rw [hi']
          rfl
    · have hf' : (c.field != some "feed") = true := by simp [hf]
      rw [hf']
      rfl

/-- A comment text matching no configured username yields no record and no
request (Instagram). -/
theorem ig_no_match_none (cfg : MetaConfig) (o : Oracle) (e : WebhookEntry)
    (h : igMentionMatch cfg (igText e) = false) :
    processInstagramWebhook cfg o e = (none, []) := by
  rw [processInstagramWebhook_eq]
  obtain ⟨i, t, cs⟩ := e
  match cs with
  | none => rfl
  | some [] => rfl
  | some (c :: rest) =>
    dsimp only
    by_cases hf : c.field = some "comments"
    · have hf' : (c.field != some "comments") = false := by simp [hf]
      simp only [hf', Bool.false_eq_true, if_false]
      match hv : c.value with
      | none => rfl
      | some v =>
        dsimp only
        apply igCore_none_of_no_match
        have htext : igText ⟨i, t, some (c :: rest)⟩ = jsOr v.text "" := by
          simp [igText, hv]
        rw [← htext]
        exact h
    · have hf' : (c.field != some "comments") = true := by simp [hf]
      rw [hf']
      rfl

/-- A produced Facebook record implies a qualifying change and a matching
comment text (and records that text verbatim). -/
theorem fb_some_inv (cfg : MetaConfig) (o : Oracle) (e : WebhookEntry)
    (md : MentionData) (calls : List NetCall)
    (h : processFacebookWebhook cfg o e = (some md, calls)) :
    fbRelevant e = true ∧ fbMentionMatch cfg (fbText e) = true ∧
      md.commentText = fbText e := by
  rw [processFacebookWebhook_eq] at h
  obtain ⟨i, t, cs⟩ := e
  match cs with
  | none => simp at h
  | some [] => simp at h
  | some (c :: rest) =>
    dsimp only at h
    by_cases hf : c.field = some "feed"
    · have hf' : (c.field != some "feed") = false := by simp [hf]
      simp only [hf', Bool.false_eq_true, if_false] at h
      match hv : c.value with
      | none =>
        rw [hv] at h
        simp at h
      | some v =>
        rw [hv] at h
        dsimp only at h
        by_cases hi : v.item = some "comment"
        · have hi' : (v.item != some "comment") = false := by simp [hi]
          simp only [hi', Bool.false_eq_true, if_false] at h
          have hcore := fbCore_some_match cfg o v t md calls h
          have htext : fbText ⟨i, t, some (c :: rest)⟩ = jsOr v.message "" := by
            simp [fbText, hv]
          refine ⟨by simp [fbRelevant, hf, hv, hi], ?_, ?_⟩
          · rw [htext]
            exact hcore.2
          · rw [htext]
            exact hcore.1
        · have hi' : (v.item != some "comment") = true := by simp [hi]
          rw [hi'] at h
          simp at h
    · have hf' : (c.field != some "feed") = true := by simp [hf]
      rw [hf'] at h
      simp at h

/-- A produced Instagram record implies a qualifying change and a matching
comment text (and records that text verbatim). -/
theorem ig_some_inv (cfg : MetaConfig) (o : Oracle) (e : WebhookEntry)
    (md : MentionData) (calls : List NetCall)
    (h : processInstagramWebhook cfg o e = (some md, calls)) :
    igRelevant e = true ∧ igMentionMatch cfg (igText e) = true ∧
      md.commentText = igText e := by
  rw [processInstagramWebhook_eq] at h
  obtain ⟨i, t, cs⟩ := e
  match cs with
  | none => simp at h
  | some [] => simp at h
  | some (c :: rest) =>
    dsimp only at h
    by_cases hf : c.field = some "comments"
    · have hf' : (c.field != some "comments") = false := by simp [hf]
      simp only [hf', Bool.false_eq_true, if_false] at h
      match hv : c.value with
      | none =>
        rw [hv] at h
        simp at h
      | some v =>
        rw [hv] at h
        dsimp only at h
        have hcore := igCore_some_match cfg o v t md calls h
        have htext : igText ⟨i, t, some (c :: rest)⟩ = jsOr v.text "" := by
          simp [igText, hv]
        refine ⟨by simp [igRelevant, hf, hv], ?_, ?_⟩
        · rw [htext]
          exact hcore.2
        · rw [htext]
          exact hcore.1
    · have hf' : (c.field != some "comments") = true := by simp [hf]
      rw [hf'] at h
      simp at h

/-- When the Facebook extractor yields nothing, the controller performs no
request and sends no email for the entry. -/
theorem entryEvents_page_none (cfg : MetaConfig) (o : Oracle) (e : WebhookEntry)
    (h : processFacebookWebhook cfg o e = (none, [])) :
    entryEvents cfg o "page" e = [Event.dispatch "page"] := by
  simp [entryEvents, h]

/-- When the Instagram extractor yields nothing, the controller performs no
request and sends no email for the entry. -/
theorem entryEvents_instagram_none (cfg : MetaConfig) (o : Oracle) (e : WebhookEntry)
    (h : processInstagramWebhook cfg o e = (none, [])) :
    entryEvents cfg o "instagram" e = [Event.dispatch "instagram"] := by
  simp [entryEvents, h]

/-! ## Claim theorems -/

/-- Claim C1: a `MentionData` record is constructed by the extractors only
when the entry's comment text contains a literal `@username` for a
configured business Instagram username or (Facebook path) a literal
`@PageName` or `@[pageId]` for a configured page; an entry whose change
has a non-matching field or item, or whose text matches no configured
identifier, makes the extractor return `null` with no network request and
no email from the controller. -/
theorem C1_mention_record_only_on_match (cfg : MetaConfig) (o : Oracle)
    (e : WebhookEntry) :
    (fbRelevant e = false → processFacebookWebhook cfg o e = (none, [])) ∧
    (fbMentionMatch cfg (fbText e) = false →
      processFacebookWebhook cfg o e = (none, [])) ∧
    (∀ md calls, processFacebookWebhook cfg o e = (some md, calls) →
      fbRelevant e = true ∧ fbMentionMatch cfg (fbText e) = true ∧
        md.commentText = fbText e) ∧
    (igRelevant e = false → processInstagramWebhook cfg o e = (none, [])) ∧
    (igMentionMatch cfg (igText e) = false →
      processInstagramWebhook cfg o e = (none, [])) ∧
    (∀ md calls, processInstagramWebhook cfg o e = (some md, calls) →
      igRelevant e = true ∧ igMentionMatch cfg (igText e) = true ∧
        md.commentText = igText e) ∧
    (processFacebookWebhook cfg o e = (none, []) →
      entryEvents cfg o "page" e = [Event.dispatch "page"]) ∧
    (processInstagramWebhook cfg o e = (none, []) →
      entryEvents cfg o "instagram" e = [Event.dispatch "instagram"]) :=
  ⟨fb_not_relevant_none cfg o e, fb_no_match_none cfg o e,
   fun md calls h => fb_some_inv cfg o e md calls h,
   ig_not_relevant_none cfg o e, ig_no_match_none cfg o e,
   fun md calls h => ig_some_inv cfg o e md calls h,
   entryEvents_page_none cfg o e, entryEvents_instagram_none cfg o e⟩

/-- Claim C1 witness: a non-matching comment yields no record, request or
email; a wrong-field change yields no Instagram record. -/
theorem C1_mention_record_only_on_match_witness :
    processFacebookWebhook wCfg oracleNone wEntryFBNoMention = (none, []) ∧
    entryEvents wCfg oracleNone "page" wEntryFBNoMention = [Event.dispatch "page"] ∧
    processInstagramWebhook wCfg oracleNone wEntryIGWrongField = (none, []) :=
  have h1 := (C1_mention_record_only_on_match wCfg oracleNone wEntryFBNoMention).2.1
    (by decide)
  ⟨h1,
   (C1_mention_record_only_on_match wCfg oracleNone wEntryFBNoMention).2.2.2.2.2.2.1 h1,
   (C1_mention_record_only_on_match wCfg oracleNone wEntryIGWrongField).2.2.2.1
     (by decide)⟩

/-- Claim C2 counterexample: with `hub.mode` present but empty (an empty
string is a present query-string value) and an incorrect token, the claim
demands 403, but the handler's JavaScript truthiness check routes the
request to the missing-parameter branch and answers 400. -/
theorem C2_counterexample :
    (verifyWebhook "secret" (some "") (some "wrong") (some "c")).status = 400 ∧
    (verifyWebhook "secret" (some "") (some "wrong") (some "c")).status ≠ 403 := by
  constructor <;> decide

/-- Claim C2 (amended): with both parameters present AND NON-EMPTY, correct
mode and token give 200 echoing the challenge, and anything else gives
403; a missing or empty parameter gives a non-200 error status (400 in
the TypeScript controller, 404 in the legacy server). -/
theorem C2_verify_handshake (vt : String) (mode token challenge : Option String) :
    (strTruthy mode = true → strTruthy token = true →
      mode = some "subscribe" → token = some vt →
      verifyWebhook vt mode token challenge = ⟨200, challenge⟩ ∧
      jsVerifyGet vt mode token challenge = ⟨200, challenge⟩) ∧
    (strTruthy mode = true → strTruthy token = true →
      ¬(mode = some "subscribe" ∧ token = some vt) →
      verifyWebhook vt mode token challenge = ⟨403, none⟩ ∧
      jsVerifyGet vt mode token challenge = ⟨403, none⟩) ∧
    (¬(strTruthy mode = true ∧ strTruthy token = true) →
      verifyWebhook vt mode token challenge = ⟨400, none⟩ ∧
      jsVerifyGet vt mode token challenge = ⟨404, none⟩) := by
  refine ⟨?_, ?_, ?_⟩
  · intro hm ht hmo hto
    subst hmo
    subst hto
    constructor <;> simp [verifyWebhook, jsVerifyGet, hm, ht]
  · intro hm ht hne
    have hcond : (mode == some "subscribe" && token == some vt) = false := by
      rcases not_and_or.mp hne with h | h
      · have hb : (mode == some "subscribe") = false := beq_eq_false_iff_ne.mpr h
        simp [hb]
      · have hb : (token == some vt) = false := beq_eq_false_iff_ne.mpr h
        simp [hb]
    constructor <;> simp [verifyWebhook, jsVerifyGet, hm, ht, hcond]
  · intro hne
    have hcond : (strTruthy mode && strTruthy token) = false := by
      rcases not_and_or.mp hne with h | h <;>
        simp [Bool.not_eq_true] at h <;> simp [h]
    constructor <;> simp [verifyWebhook, jsVerifyGet, hcond]

/-- Claim C2 witness: the three branches at concrete requests. -/
theorem C2_verify_handshake_witness :
    verifyWebhook "secret" (some "subscribe") (some "secret") (some "ch") =
      ⟨200, some "ch"⟩ ∧
    verifyWebhook "secret" (some "subscribe") (some "bad") (some "ch") =
      ⟨403, none⟩ ∧
    verifyWebhook "secret" none (some "secret") (some "ch") = ⟨400, none⟩ ∧
    jsVerifyGet "secret" none (some "secret") (some "ch") = ⟨404, none⟩ :=
  have h3 := (C2_verify_handshake "secret" none (some "secret") (some "ch")).2.2
    (by decide)
  ⟨((C2_verify_handshake "secret" (some "subscribe") (some "secret") (some "ch")).1
      (by decide) (by decide) rfl rfl).1,
   ((C2_verify_handshake "secret" (some "subscribe") (some "bad") (some "ch")).2.1
      (by decide) (by decide) (by simp)).1,
   h3.1, h3.2⟩

/-- Claim C3 counterexample: on the legacy `webhook-server.js` endpoint, a
single-entry `instagram` payload with a qualifying comment is fully
processed (Graph request, then email) BEFORE the 200 `EVENT_RECEIVED`
acknowledgment: the first action of the handler is the outbound request,
and the acknowledgment only appears later in the trace. -/
theorem C3_counterexample :
    (jsProcessPost wAccounts wFbPages oracleNone wPayloadOneChange).head? =
      some (Event.net (NetCall.fbPost "undefined" "tok1")) ∧
    Event.ack 200 "EVENT_RECEIVED" ∈
      jsProcessPost wAccounts wFbPages oracleNone wPayloadOneChange := by
  constructor <;> decide

/-- Claim C3 (amended): the TypeScript controller's `processWebhook` sends
the 200 `EVENT_RECEIVED` acknowledgment before any entry is dispatched to
the extractor, detail fetcher or notifier (for every payload, the
acknowledgment is the first action of its trace); the legacy
`webhook-server.js` endpoint instead acknowledges only after processing
all entries. -/
theorem C3_ack_before_processing (cfg : MetaConfig) (o : Oracle)
    (payload : WebhookPayload) :
    ∃ rest, processWebhook cfg o payload =
      Event.ack 200 "EVENT_RECEIVED" :: rest :=
  ⟨_, rfl⟩

/-- Claim C4 counterexample: the legacy `webhook-server.js`
`getFacebookPostDetails` called with an empty access token still issues
the Graph API request (and returns an error object rather than `null`). -/
theorem C4_counterexample :
    jsGetFacebookPostDetails oracleNone "post1" "" =
      (JsFetchResult.fetchError, [NetCall.fbPost "post1" ""]) ∧
    [NetCall.fbPost "post1" ""] ≠ ([] : List NetCall) := by
  constructor <;> decide

/-- Claim C4 (amended): the TypeScript detail fetchers
(`getFacebookPostDetails`, `getInstagramMediaDetails` of the services)
short-circuit on an empty access token, returning `null` without issuing
any network request; the legacy `webhook-server.js` `getFacebookPostDetails`
instead issues exactly one request whatever the token. -/
theorem C4_empty_token_short_circuit (o : Oracle) (postId mediaId : String) :
    getFacebookPostDetails o postId "" = (none, []) ∧
    getInstagramMediaDetails o mediaId "" = (none, []) ∧
    (∀ tok, (jsGetFacebookPostDetails o postId tok).2 =
      [NetCall.fbPost postId tok]) :=
  ⟨rfl, rfl, fun _ => rfl⟩

/-- The Instagram core's record, when produced, carries exactly the username
found first by the scan over the configured list. -/
theorem igCore_fst_username (cfg : MetaConfig) (o : Oracle) (v : ChangeValue)
    (t : Option Nat) :
    (igCore cfg o v t).1 = none ∨
      ∃ md, (igCore cfg o v t).1 = some md ∧
        cfg.businessIgUsernames.find?
          (fun u => strContains (jsOr v.text "") ("@" ++ u)) =
          some md.mentionedUsername := by
  cases hf : cfg.businessIgUsernames.find?
      (fun u => strContains (jsOr v.text "") ("@" ++ u)) with
  | none =>
    left
    simp [igCore, hf]
  | some w =>
    by_cases hw : w = ""
    · left
      simp [igCore, hf, hw]
    · have hcond : ¬((w == "") = true) := by simp [hw]
      have hmu : ((igCore cfg o v t).1).map MentionData.mentionedUsername = some w := by
        simp only [igCore, hf, Option.getD_some, if_neg hcond, Option.map_some']
      cases hres : (igCore cfg o v t).1 with
      | none =>
        rw [hres] at hmu
        simp at hmu
      | some md =>
        right
        refine ⟨md, rfl, ?_⟩
        rw [hres, Option.map_some'] at hmu
        rw [Option.some.inj hmu]

/-- The Facebook core's record, when the username scan finds a non-empty
username, is produced and carries exactly that username. -/
theorem fbCore_fst_username (cfg : MetaConfig) (o : Oracle) (v : ChangeValue)
    (t : Option Nat) (w : String)
    (hf : cfg.businessIgUsernames.find?
      (fun u => strContains (jsOr v.message "") ("@" ++ u)) = some w)
    (hw : w ≠ "") :
    ∃ md, (fbCore cfg o v t).1 = some md ∧ md.mentionedUsername = w := by
  have hb : (w == "") = false := beq_eq_false_iff_ne.mpr hw
  have hmu : ((fbCore cfg o v t).1).map MentionData.mentionedUsername = some w := by
    simp only [fbCore, hf, Option.getD_some, hb, Bool.false_eq_true, if_false,
      Bool.false_and, Option.map_some']
  cases hres : (fbCore cfg o v t).1 with
  | none =>
    rw [hres] at hmu
    simp at hmu
  | some md =>
    refine ⟨md, rfl, ?_⟩
    rw [hres, Option.map_some'] at hmu
    exact Option.some.inj hmu

/-- A produced Instagram record's `mentionedUsername` is exactly the first
configured username whose `@`-form occurs in the comment text. -/
theorem ig_mentionedUsername_inv (cfg : MetaConfig) (o : Oracle) (e : WebhookEntry)
    (md : MentionData) (calls : List NetCall)
    (h : processInstagramWebhook cfg o e = (some md, calls)) :
    cfg.businessIgUsernames.find?
      (fun u => strContains (igText e) ("@" ++ u)) = some md.mentionedUsername := by
  rw [processInstagramWebhook_eq] at h
  obtain ⟨i, t, cs⟩ := e
  match cs with
  | none => simp at h
  | some [] => simp at h
  | some (c :: rest) =>
    dsimp only at h
    by_cases hf : c.field = some "comments"
    · have hf' : (c.field != some "comments") = false := by simp [hf]
      simp only [hf', Bool.false_eq_true, if_false] at h
      match hv : c.value with
      | none =>
        rw [hv] at h
        simp at h
      | some v =>
        rw [hv] at h
        dsimp only at h
        have htext : igText ⟨i, t, some (c :: rest)⟩ = jsOr v.text "" := by
          simp [igText, hv]
        rw [htext]
        rcases igCore_fst_username cfg o v t with h0 | ⟨md', h1, h2⟩
        · rw [h] at h0
          simp at h0
        · rw [h] at h1
          simp only [Option.some.injEq] at h1
          rw [← h1] at h2
          exact h2
    · have hf' : (c.field != some "comments") = true := by simp [hf]
      rw [hf'] at h
      simp at h

/-- A produced Facebook record's `mentionedUsername` is the first configured
username whose `@`-form occurs in the comment text, whenever that scan
finds a non-empty username. -/
theorem fb_mentionedUsername_inv (cfg : MetaConfig) (o : Oracle) (e : WebhookEntry)
    (md : MentionData) (calls : List NetCall) (w : String)
    (h : processFacebookWebhook cfg o e = (some md, calls))
    (hfind : cfg.businessIgUsernames.find?
      (fun u => strContains (fbText e) ("@" ++ u)) = some w)
    (hw : w ≠ "") : md.mentionedUsername = w := by
  rw [processFacebookWebhook_eq] at h
  obtain ⟨i, t, cs⟩ := e
  match cs with
  | none => simp at h
  | some [] => simp at h
  | some (c :: rest) =>
    dsimp only at h
    by_cases hf : c.field = some "feed"
    · have hf' : (c.field != some "feed") = false := by simp [hf]
      simp only [hf', Bool.false_eq_true, if_false] at h
      match hv : c.value with
      | none =>
        rw [hv] at h
        simp at h
      | some v =>
        rw [hv] at h
        dsimp only at h
        by_cases hi : v.item = some "comment"
        · have hi' : (v.item != some "comment") = false := by simp [hi]
          simp only [hi', Bool.false_eq_true, if_false] at h
          have htext : fbText ⟨i, t, some (c :: rest)⟩ = jsOr v.message "" := by
            simp [fbText, hv]
          rw [htext] at hfind
          obtain ⟨md', h1, h2⟩ := fbCore_fst_username cfg o v t w hfind hw
          rw [h] at h1
          simp only [Option.some.injEq] at h1
          rw [h1]
          exact h2
        · have hi' : (v.item != some "comment") = true := by simp [hi]
          rw [hi'] at h
          simp at h
    · have hf' : (c.field != some "feed") = true := by simp [hf]
      rw [hf'] at h
      simp at h

/-- Claim C5: the username scan iterates the configured list in order and
stops at the first hit: if every username listed before `u` fails the
substring test and `u` passes it, the scan selects `u` whatever comes
after it; and the record built by either extractor carries exactly the
scan's first hit (on the Facebook path whenever that hit is non-empty,
page mentions aside). -/
theorem C5_first_match_policy (text : String) (pre : List String) (u : String)
    (post : List String)
    (h1 : ∀ v ∈ pre, strContains text ("@" ++ v) = false)
    (h2 : strContains text ("@" ++ u) = true) :
    ((pre ++ u :: post).find? (fun v => strContains text ("@" ++ v)) = some u) ∧
    (∀ cfg o e md calls, processInstagramWebhook cfg o e = (some md, calls) →
      cfg.businessIgUsernames.find?
        (fun v => strContains (igText e) ("@" ++ v)) = some md.mentionedUsername) ∧
    (∀ cfg o e md calls w, processFacebookWebhook cfg o e = (some md, calls) →
      cfg.businessIgUsernames.find?
        (fun v => strContains (fbText e) ("@" ++ v)) = some w →
      w ≠ "" → md.mentionedUsername = w) :=
  ⟨find?_first (fun v => strContains text ("@" ++ v)) pre u post h1 h2,
   fun cfg o e md calls h => ig_mentionedUsername_inv cfg o e md calls h,
   fun cfg o e md calls w h hfind hw =>
     fb_mentionedUsername_inv cfg o e md calls w h hfind hw⟩

/-- Claim C5 witness: with `zzz` listed first failing the test and both
`acme` and `acme2` matching, the scan selects `acme`; a concrete
Instagram entry mentioning `@beta` yields a record carrying `beta`,
matching the scan. -/
theorem C5_first_match_policy_witness :
    ((["zzz"] ++ "acme" :: ["acme2"]).find?
      (fun v => strContains "no @zz, hi @acme and @acme2" ("@" ++ v)) = some "acme") ∧
    wCfg.businessIgUsernames.find?
      (fun v => strContains (igText wEntryIG) ("@" ++ v)) =
      some wMentionIG.mentionedUsername :=
  ⟨(C5_first_match_policy "no @zz, hi @acme and @acme2" ["zzz"] "acme" ["acme2"]
      (by decide) (by decide)).1,
   (C5_first_match_policy "no @zz, hi @acme and @acme2" ["zzz"] "acme" ["acme2"]
      (by decide) (by decide)).2.1 wCfg oracleNone wEntryIG wMentionIG
      [NetCall.igMedia "m1" "tok1", NetCall.igUser "u1" "tok1"] (by decide)⟩

/-- Claim C6 counterexample: on the legacy `webhook-server.js` endpoint,
which iterates EVERY change, a qualifying comment mention sitting only in
the second change of an entry still produces a mention notification; the
same entry truncated to its first change produces none. -/
theorem C6_counterexample :
    Event.email (some "acme") ∈
      jsProcessPost wAccounts wFbPages oracleNone wPayloadSecondChange ∧
    Event.email (some "acme") ∉
      jsProcessPost wAccounts wFbPages oracleNone wPayloadFirstOnly := by
  constructor <;> decide

/-- Claim C6 (amended): the TypeScript extractors examine only the first
element of `entry.changes` — their result is unchanged when every change
after the first is dropped, so a qualifying mention appearing solely in a
later change produces no `MentionData` from them.  (The legacy
`webhook-server.js` endpoint instead iterates all changes.) -/
theorem C6_only_first_change (cfg : MetaConfig) (o : Oracle) (i : Option String)
    (t : Option Nat) (c : Change) (rest : List Change) :
    processFacebookWebhook cfg o ⟨i, t, some (c :: rest)⟩ =
      processFacebookWebhook cfg o ⟨i, t, some [c]⟩ ∧
    processInstagramWebhook cfg o ⟨i, t, some (c :: rest)⟩ =
      processInstagramWebhook cfg o ⟨i, t, some [c]⟩ := by
  constructor
  · rw [processFacebookWebhook_eq, processFacebookWebhook_eq]
  · rw [processInstagramWebhook_eq, processInstagramWebhook_eq]

/-- Claim C7 counterexample: the legacy `handleComment` lookup sends a
notification for the comment `hi @ACME` against the monitored account
`acme`, although `@acme` does not occur case-sensitively in the text —
the lookup is case-insensitive, refuting the claimed equivalence. -/
theorem C7_counterexample :
    Event.email (some "acme") ∈ jsHandleComment wAccounts oracleNone wValUpperCase ∧
    strContains "hi @ACME" "@acme" = false := by
  constructor <;> decide

/-- Claim C7 (amended): the TypeScript extractor's lookup matches iff the
text contains the configured `@username` (or `@PageName` / `@[pageId]`)
as an exact case-sensitive contiguous substring; the legacy
`webhook-server.js` `handleComment` lookup instead lowercases both sides,
matching iff the lowercased text contains `@` + the lowercased username. -/
theorem C7_case_sensitive_matching (text username pageName pageId message : String) :
    (strContains text ("@" ++ username) = true ↔
      ∃ pre post, text.toList = pre ++ ("@" ++ username).toList ++ post) ∧
    (strContains text ("@" ++ pageName) = true ↔
      ∃ pre post, text.toList = pre ++ ("@" ++ pageName).toList ++ post) ∧
    (strContains text ("@[" ++ pageId ++ "]") = true ↔
      ∃ pre post, text.toList = pre ++ ("@[" ++ pageId ++ "]").toList ++ post) ∧
    (jsMentionMatch message username = true ↔
      ∃ pre post, (lowerStr message).toList =
        pre ++ ("@" ++ lowerStr username).toList ++ post) :=
  ⟨strContains_iff text ("@" ++ username),
   strContains_iff text ("@" ++ pageName),
   strContains_iff text ("@[" ++ pageId ++ "]"),
   strContains_iff (lowerStr message) ("@" ++ lowerStr username)⟩

/-- The `try` body of `processFacebookWebhook` never reaches its error case:
it evaluates to `.ok` of the same branch structure for every entry. -/
theorem fbBodyE_eq (cfg : MetaConfig) (o : Oracle) (e : WebhookEntry) :
    fbBodyE cfg o e =
      .ok (match e.changes with
      | none => (none, [])
      | some [] => (none, [])
      | some (c :: _) =>
        if c.field != some "feed" then (none, [])
        else match c.value with
          | none => (none, [])
          | some v =>
            if v.item != some "comment" then (none, [])
            else fbCore cfg o v e.time) := by
  obtain ⟨i, t, cs⟩ := e
  cases cs with
  | none => rfl
  | some l =>
    cases l with
    | nil => rfl
    | cons c rest =>
      simp only [fbBodyE, List.getElem?_cons_zero, List.length_cons]
      norm_num

/-- The `try` body of `processInstagramWebhook` never reaches its error case. -/
theorem igBodyE_eq (cfg : MetaConfig) (o : Oracle) (e : WebhookEntry) :
    igBodyE cfg o e =
      .ok (match e.changes with
      | none => (none, [])
      | some [] => (none, [])
      | some (c :: _) =>
        if c.field != some "comments" then (none, [])
        else match c.value with
          | none => (none, [])
          | some v => igCore cfg o v e.time) := by
  obtain ⟨i, t, cs⟩ := e
  cases cs with
  | none => rfl
  | some l =>
    cases l with
    | nil => rfl
    | cons c rest =>
      simp only [igBodyE, List.getElem?_cons_zero, List.length_cons]
      norm_num

/-- Claim C8: `getPageAccessToken` answers the matching page's token when
one exists, falls back to the first configured page's token when the
queried id is absent or unmatched, and returns the empty-string failure
indicator when no pages are configured (page ids being non-empty, as the
configuration loader guarantees). -/
theorem C8_page_token_lookup (pages : List Page) (pageId : Option String)
    (h : ∀ p ∈ pages, p.id ≠ "") :
    (∀ page, pages.find? (fun p => p.id == pageId.getD "") = some page →
      getPageAccessToken pages pageId = page.pageAccessToken) ∧
    (pages.find? (fun p => p.id == pageId.getD "") = none →
      getPageAccessToken pages pageId =
        ((pages.head?).map Page.pageAccessToken).getD "") := by
  constructor
  · intro page hfind
    have hmem := List.mem_of_find?_eq_some hfind
    have hpid' := List.find?_some hfind
    rw [beq_iff_eq] at hpid'
    have hpid : page.id = pageId.getD "" := hpid' 
    have hne := h page hmem
    match pageId with
    | none =>
      rw [hpid] at hne
      simp at hne
    | some pid =>
      have hpt : pid ≠ "" := by
        intro hx
        rw [hx] at hpid
        exact hne hpid
      have ht : strTruthy (some pid) = true := by
        simp [strTruthy, hpt]
      simp only [Option.getD_some] at hfind
      simp [getPageAccessToken, ht, hfind]
  · intro hfind
    cases pages with
    | nil => cases ht : strTruthy pageId <;> simp [getPageAccessToken, ht]
    | cons q qs =>
      cases ht : strTruthy pageId with
      | true => simp [getPageAccessToken, ht, hfind]
      | false => simp [getPageAccessToken, ht]

/-- Claim C8 witness: a matched id returns that page's token, an unmatched
id falls back to the first page's token, and an empty page list returns
the empty string. -/
theorem C8_page_token_lookup_witness :
    getPageAccessToken wCfg.pages (some "p2") = "tok2" ∧
    getPageAccessToken wCfg.pages (some "zz") = "tok1" ∧
    getPageAccessToken [] (some "p2") = "" :=
  ⟨(C8_page_token_lookup wCfg.pages (some "p2") (by decide)).1
      ⟨"p2", "Beta", "tok2", none⟩ (by decide),
   (C8_page_token_lookup wCfg.pages (some "zz") (by decide)).2 (by decide),
   (C8_page_token_lookup [] (some "p2") (by decide)).2 (by decide)⟩

/-- Claim C9: for every entry, however malformed, each extractor's `try`
body runs to completion without reaching a thrown-error state, returning
`.ok` of the extractor's (Option-valued) result — so the functions always
terminate with a record or `null` and propagate no exception (the `catch`
mapping errors to `null` is never even exercised). -/
theorem C9_extractors_never_throw (cfg : MetaConfig) (o : Oracle) (e : WebhookEntry) :
    fbBodyE cfg o e = Except.ok (processFacebookWebhook cfg o e) ∧
    igBodyE cfg o e = Except.ok (processInstagramWebhook cfg o e) := by
  rw [fbBodyE_eq, igBodyE_eq, processFacebookWebhook_eq, processInstagramWebhook_eq]
  exact ⟨rfl, rfl⟩

/-- Claim C10: every page built by the configuration loader has non-empty
id, name and access token, and consequently, whenever any page is
configured, `getPageAccessToken` answers a non-empty token for every
queried id. -/
theorem C10_config_pages_invariant (env : EnvMap) :
    (∀ p ∈ extractPages env,
      p.id ≠ "" ∧ p.name ≠ "" ∧ p.pageAccessToken ≠ "") ∧
    (extractPages env ≠ [] →
      ∀ pid, getPageAccessToken (extractPages env) pid ≠ "") := by
  refine ⟨extractPages_fields env, ?_⟩
  intro hne pid
  obtain ⟨p, hmem, heq⟩ := getPageAccessToken_mem (extractPages env) pid hne
  rw [heq]
  exact (extractPages_fields env p hmem).2.2

/-- Claim C10 witness: a concrete environment with one complete and one
incomplete page configuration yields one page and a non-empty token. -/
theorem C10_config_pages_invariant_witness :
    extractPages wEnv ≠ [] ∧
    getPageAccessToken (extractPages wEnv) none ≠ "" :=
  ⟨by decide, (C10_config_pages_invariant wEnv).2 (by decide) none⟩
